import Mathlib

/-!
Verification of `src/src/constants.c` from `deadbeefv/interfaces-rs`.

The C file defines

    typedef struct constant { const char* name; uint64_t value; } constant_t;

    constant_t* rust_get_constants() {
        static constant_t constants[] = {
            { "SIOCGIFFLAGS", SIOCGIFFLAGS },
            { "SIOCSIFFLAGS", SIOCSIFFLAGS },
            // End of list sentinel
            { NULL, 0 },
        };
        return constants;
    }

We embed the table shallowly: a `const char*` name is `Option String`
(`none` is the C `NULL` pointer, `some s` a non-null C string), and the
`uint64_t` value is a `Nat` reduced modulo `2^64` (the initializer
converts the platform macro's value to `uint64_t`).  The macros
`SIOCGIFFLAGS` and `SIOCSIFFLAGS` come from the compiling platform's
headers, so the embedding is parameterized by a `Platform` supplying
their numeric values; `linux_x86_64` instantiates it with the values
from Linux's `<asm-generic/sockios.h>`.
-/

/-- Embedding of `constant_t`: `name` models the `const char*` field
(`none` = `NULL`), `value` the `uint64_t` field. -/
structure constant_t where
  name : Option String
  value : Nat
deriving DecidableEq, Repr

/-- The numeric values the compiling platform's headers define for the
two macros used by the table.  The C source receives them from
`<sys/ioctl.h>` / `<net/if.h>` at compile time. -/
structure Platform where
  SIOCGIFFLAGS : Nat
  SIOCSIFFLAGS : Nat
deriving DecidableEq, Repr

/-- Linux (x86-64) header values: `SIOCGIFFLAGS = 0x8913`,
`SIOCSIFFLAGS = 0x8914` (from `<asm-generic/sockios.h>`). -/
def linux_x86_64 : Platform :=
  { SIOCGIFFLAGS := 0x8913, SIOCSIFFLAGS := 0x8914 }

/-- The static array `constants` of `rust_get_constants`, as initialized
in the source: two named entries in declaration order, then the
`{ NULL, 0 }` sentinel.  Each initializer converts the macro value to
`uint64_t`, hence the `% 2^64`. -/
def constants (p : Platform) : List constant_t :=
  [ { name := some "SIOCGIFFLAGS", value := p.SIOCGIFFLAGS % 2 ^ 64 },
    { name := some "SIOCSIFFLAGS", value := p.SIOCSIFFLAGS % 2 ^ 64 },
    -- End of list sentinel
    { name := none, value := 0 } ]

/-- `rust_get_constants`: returns the table.  The C function returns a
pointer to the static array; the embedding returns the array's
contents. -/
def rust_get_constants (p : Platform) : List constant_t :=
  constants p

/-- The process-wide mutable state relevant to the function: the
contents of the static array `constants`.  The initializer is a constant
expression, so the array is initialized at load time, before any call. -/
structure ProcessState where
  constants_storage : List constant_t
deriving DecidableEq, Repr

/-- Process state at load time for platform `p`: the static array holds
its initializer. -/
def initialState (p : Platform) : ProcessState :=
  { constants_storage := constants p }

/-- One call of `rust_get_constants`, as a state transformer: the body
only reads the static array and returns it; it writes nothing, so the
state is returned unchanged. -/
def rust_get_constants_call (s : ProcessState) : List constant_t × ProcessState :=
  (s.constants_storage, s)

/-- A caller-side scan: an entry is "real" when its `name` is not the
`NULL` pointer. -/
def isRealEntry (e : constant_t) : Bool :=
  e.name.isSome

/-- Iterating the sequence and stopping at the first `NULL` name: the
real (non-sentinel) entries. -/
def realEntries (l : List constant_t) : List constant_t :=
  l.takeWhile isRealEntry

/-- Looking a constant up by name among the real entries. -/
def lookupConstant (n : String) (l : List constant_t) : Option constant_t :=
  (realEntries l).find? (fun e => e.name == some n)

/-- The sentinel entry `{ NULL, 0 }`. -/
def sentinel : constant_t :=
  { name := none, value := 0 }

/-- A well-formed table: non-empty, ends in the sentinel, and no entry
before the sentinel has a `NULL` or empty name. -/
def validTable (l : List constant_t) : Prop :=
  l ≠ [] ∧ l.getLast? = some sentinel ∧
    ∀ e ∈ l.dropLast, e.name ≠ none ∧ e.name ≠ some ""

instance (l : List constant_t) : Decidable (validTable l) := by
  unfold validTable; infer_instance

/-- C1: on every platform, the sequence returned by
`rust_get_constants` is non-empty, its last entry is exactly the
sentinel (`NULL` name, value 0), and no entry before the sentinel has a
`NULL` or empty name. -/
theorem rust_get_constants_sentinel_terminated (p : Platform) :
    rust_get_constants p ≠ [] ∧
    (rust_get_constants p).getLast? = some sentinel ∧
    ∀ e ∈ (rust_get_constants p).dropLast, e.name ≠ none ∧ e.name ≠ some "" := by
  refine ⟨by simp [rust_get_constants, constants], rfl, ?_⟩
  intro e he
  simp only [rust_get_constants, constants, List.dropLast, List.mem_cons,
    List.not_mem_nil, or_false] at he
  rcases he with h | h <;> subst h <;> exact ⟨by simp, by simp⟩

/-- C2: stopping at the first `NULL` name yields exactly the 2 real
entries, named `"SIOCGIFFLAGS"` then `"SIOCSIFFLAGS"` in source order,
each with a non-zero value (given that the platform's header values are
non-zero and fit in 64 bits, as they do on every supported platform),
and the sequence is those entries followed by the sentinel. -/
theorem rust_get_constants_two_real_entries (p : Platform)
    (hg0 : p.SIOCGIFFLAGS ≠ 0) (hglt : p.SIOCGIFFLAGS < 2 ^ 64)
    (hs0 : p.SIOCSIFFLAGS ≠ 0) (hslt : p.SIOCSIFFLAGS < 2 ^ 64) :
    (realEntries (rust_get_constants p)).length = 2 ∧
    (realEntries (rust_get_constants p)).map constant_t.name =
      [some "SIOCGIFFLAGS", some "SIOCSIFFLAGS"] ∧
    (∀ e ∈ realEntries (rust_get_constants p), e.value ≠ 0) ∧
    rust_get_constants p = realEntries (rust_get_constants p) ++ [sentinel] := by
  have hre : realEntries (rust_get_constants p) =
      [ { name := some "SIOCGIFFLAGS", value := p.SIOCGIFFLAGS % 2 ^ 64 },
        { name := some "SIOCSIFFLAGS", value := p.SIOCSIFFLAGS % 2 ^ 64 } ] := rfl
  refine ⟨by rw [hre]; rfl, by rw [hre]; rfl, ?_, by rw [hre]; rfl⟩
  intro e he
  rw [hre] at he
  simp only [List.mem_cons, List.not_mem_nil, or_false] at he
  rcases he with h | h <;> subst h <;> simp only []
  · rw [Nat.mod_eq_of_lt hglt]; exact hg0
  · rw [Nat.mod_eq_of_lt hslt]; exact hs0

/-- Witness for C2 at the Linux x86-64 header values. -/
theorem rust_get_constants_two_real_entries_witness :
    (realEntries (rust_get_constants linux_x86_64)).length = 2 ∧
    (realEntries (rust_get_constants linux_x86_64)).map constant_t.name =
      [some "SIOCGIFFLAGS", some "SIOCSIFFLAGS"] ∧
    (∀ e ∈ realEntries (rust_get_constants linux_x86_64), e.value ≠ 0) ∧
    rust_get_constants linux_x86_64 =
      realEntries (rust_get_constants linux_x86_64) ++ [sentinel] :=
  rust_get_constants_two_real_entries linux_x86_64
    (by decide) (by decide) (by decide) (by decide)

/-- C3: each named entry holds exactly the numeric value the compiling
platform's headers define for that macro (the `uint64_t` conversion is
the identity because the header values fit in 64 bits). -/
theorem rust_get_constants_values_match_platform (p : Platform)
    (hglt : p.SIOCGIFFLAGS < 2 ^ 64) (hslt : p.SIOCSIFFLAGS < 2 ^ 64) :
    lookupConstant "SIOCGIFFLAGS" (rust_get_constants p) =
      some { name := some "SIOCGIFFLAGS", value := p.SIOCGIFFLAGS } ∧
    lookupConstant "SIOCSIFFLAGS" (rust_get_constants p) =
      some { name := some "SIOCSIFFLAGS", value := p.SIOCSIFFLAGS } := by
  have h1 : lookupConstant "SIOCGIFFLAGS" (rust_get_constants p) =
      some { name := some "SIOCGIFFLAGS", value := p.SIOCGIFFLAGS % 2 ^ 64 } := rfl
  have h2 : lookupConstant "SIOCSIFFLAGS" (rust_get_constants p) =
      some { name := some "SIOCSIFFLAGS", value := p.SIOCSIFFLAGS % 2 ^ 64 } := rfl
  rw [h1, h2, Nat.mod_eq_of_lt hglt, Nat.mod_eq_of_lt hslt]
  exact ⟨rfl, rfl⟩

/-- Witness for C3 at the Linux x86-64 header values. -/
theorem rust_get_constants_values_match_platform_witness :
    lookupConstant "SIOCGIFFLAGS" (rust_get_constants linux_x86_64) =
      some { name := some "SIOCGIFFLAGS", value := linux_x86_64.SIOCGIFFLAGS } ∧
    lookupConstant "SIOCSIFFLAGS" (rust_get_constants linux_x86_64) =
      some { name := some "SIOCSIFFLAGS", value := linux_x86_64.SIOCSIFFLAGS } :=
  rust_get_constants_values_match_platform linux_x86_64 (by decide) (by decide)

/-- C4: the accessor is idempotent: two successive calls in the same
process return sequences with identical content, and in fact any call
made from any state reachable from the load-time state returns the same
table `constants p`. -/
theorem rust_get_constants_idempotent (p : Platform) :
    ∀ s : ProcessState,
      (rust_get_constants_call (initialState p)).2 = s →
      (rust_get_constants_call s).1 =
        (rust_get_constants_call (initialState p)).1 ∧
      (rust_get_constants_call s).1 = rust_get_constants p := by
  intro s hs
  subst hs
  exact ⟨rfl, rfl⟩

/-- Witness for C4: the second call after the first call from the
load-time Linux state returns the same content. -/
theorem rust_get_constants_idempotent_witness :
    (rust_get_constants_call
        (rust_get_constants_call (initialState linux_x86_64)).2).1 =
      (rust_get_constants_call (initialState linux_x86_64)).1 ∧
    (rust_get_constants_call
        (rust_get_constants_call (initialState linux_x86_64)).2).1 =
      rust_get_constants linux_x86_64 :=
  rust_get_constants_idempotent linux_x86_64
    (rust_get_constants_call (initialState linux_x86_64)).2 rfl

/-- C5: the function takes no inputs beyond the compile-time platform,
is total, and every call returns a valid table — there is no error
value or exceptional outcome (the embedding returns `List constant_t`,
not `Option` or `Except`). -/
theorem rust_get_constants_cannot_fail (p : Platform) (s : ProcessState) :
    s = initialState p → validTable (rust_get_constants_call s).1 := by
  intro hs
  subst hs
  show validTable (constants p)
  refine ⟨by simp [constants], rfl, ?_⟩
  intro e he
  simp only [constants, List.dropLast, List.mem_cons,
    List.not_mem_nil, or_false] at he
  rcases he with h | h <;> subst h <;> exact ⟨by simp, by simp⟩

/-- Witness for C5 at the load-time Linux state. -/
theorem rust_get_constants_cannot_fail_witness :
    validTable (rust_get_constants_call (initialState linux_x86_64)).1 :=
  rust_get_constants_cannot_fail linux_x86_64 (initialState linux_x86_64) rfl

/-- C6: the call has no side effects — the process state (the static
array's contents) after a call equals the state before it — and the
content returned is the compile-time table `constants p`, fixed per
platform. -/
theorem rust_get_constants_no_side_effects (p : Platform) (s : ProcessState) :
    (rust_get_constants_call s).2 = s ∧
    (s = initialState p →
      (rust_get_constants_call s).1 = constants p) := by
  exact ⟨rfl, fun hs => by rw [hs]; rfl⟩

/-- Witness for C6 at the load-time Linux state. -/
theorem rust_get_constants_no_side_effects_witness :
    (rust_get_constants_call (initialState linux_x86_64)).2 =
      initialState linux_x86_64 ∧
    (initialState linux_x86_64 = initialState linux_x86_64 →
      (rust_get_constants_call (initialState linux_x86_64)).1 =
        constants linux_x86_64) :=
  rust_get_constants_no_side_effects linux_x86_64 (initialState linux_x86_64)

/-- C9: the sentinel's name is specifically the `NULL` pointer
(`none`), not the empty string: the table contains an entry whose name
is `none` with value 0, and no entry at all whose name is the empty
string — so a caller comparing names against `""` never detects the
sentinel. -/
theorem rust_get_constants_sentinel_is_null_not_empty (p : Platform) :
    (∃ e ∈ rust_get_constants p, e.name = none ∧ e.value = 0) ∧
    ∀ e ∈ rust_get_constants p, e.name ≠ some "" := by
  constructor
  · exact ⟨sentinel, by simp [rust_get_constants, constants, sentinel]⟩
  · intro e he
    simp only [rust_get_constants, constants, List.mem_cons,
      List.not_mem_nil, or_false] at he
    rcases he with h | h | h <;> subst h <;> simp

/-- C10: the real (non-sentinel) entry names are pairwise distinct, so a
lookup by name identifies at most one entry. -/
theorem rust_get_constants_names_nodup (p : Platform) :
    ((realEntries (rust_get_constants p)).filterMap constant_t.name).Nodup := by
  show (["SIOCGIFFLAGS", "SIOCSIFFLAGS"] : List String).Nodup
  decide
